import Mathlib

/-!
Verification of the chunking / review / summarization pipeline of
`entrypoint.py` (gemini-code-review-action).

Strings from the Python program are modelled as `List Char` where character-level
reasoning is needed (the diff text being chunked) and as Lean `String` for the
prompt texts and model replies.  Python `range` and slicing are modelled
faithfully, including the `ValueError` raised by `range` on a zero step and the
empty ranges produced by a negative step.  The external model service is an
oracle `send : ModelCall → String`; `get_review` records every call it makes so
that call counts, histories, configurations and message contents can be stated.
-/

set_option linter.unusedVariables false

/-- Clamp a Python slice endpoint into `[0, len s]`, with negative indices
counted from the end, as Python does for `s[i:j]`. -/
def pyIndex (s : List Char) (i : Int) : Int :=
  if i < 0 then max ((s.length : Int) + i) 0 else min i (s.length : Int)

/-- Python slice `s[i:j]` (unit step). -/
def pySlice (s : List Char) (i j : Int) : List Char :=
  (s.drop (pyIndex s i).toNat).take ((pyIndex s j) - (pyIndex s i)).toNat

/-- The list of values of Python `range(start, stop, step)` for nonzero `step`:
`max 0 (ceil ((stop - start) / step))` values spaced by `step`. -/
def pythonRangeList (start stop step : Int) : List Int :=
  if 0 < step then
    (List.range ((stop - start + step - 1) / step).toNat).map
      (fun (k : Nat) => start + step * (k : Int))
  else
    (List.range ((start - stop - step - 1) / (-step)).toNat).map
      (fun (k : Nat) => start + step * (k : Int))

/-- Python `range(start, stop, step)`: raises `ValueError` when `step = 0`. -/
def pythonRange (start stop step : Int) : Except String (List Int) :=
  if step = 0 then .error "ValueError: range() arg 3 must not be zero"
  else .ok (pythonRangeList start stop step)

/-- `chunk_string` from `entrypoint.py`:
`for i in range(0, len(input_string), chunk_size): append(input_string[i:i + chunk_size])`.
The result is `Except` because `range` raises on a zero step. -/
def chunk_string (input_string : List Char) (chunk_size : Int) :
    Except String (List (List Char)) :=
  match pythonRange 0 (input_string.length : Int) chunk_size with
  | .error e => .error e
  | .ok idxs => .ok (idxs.map (fun i => pySlice input_string i (i + chunk_size)))

/-- `get_review_prompt` from `entrypoint.py`: the f-string template contains no
placeholder, so `extra_prompt` is accepted but never interpolated. -/
def get_review_prompt (extra_prompt : String) : String :=
  "\n    This is a pull request or part of a pull request if the pull request is very large.\n    Suppose you review this PR as an excellent software engineer and an excellent security engineer.\n    Can you tell me the issues with differences in a pull request and provide suggestions to improve it?\n    You can provide a review summary and issue comments per file if any major issues are found.\n    Always include the name of the file that is citing the improvement or problem.\n    In the next messages I will be sending you the difference between the GitHub file codes, okay?\n    "

/-- `get_summarize_prompt` from `entrypoint.py`. -/
def get_summarize_prompt : String :=
  "\n    Can you summarize this for me?\n    It would be good to stick to highlighting pressing issues and providing code suggestions to improve the pull request.\n    Here\x27s what you need to summarize:\n    "

/-- The inline instruction `get_review` uses when there are zero chunks. -/
def empty_diff_instruction : String :=
  "Say that you didn\x27t find any relevant changes to comment on any file"

/-- One turn of seeded conversation history (a `role`/`parts` dict). -/
structure Turn where
  role : String
  parts : List String

/-- The generation configuration dict built inside `get_review`. -/
structure GenerationConfig where
  temperature : Rat
  top_p : Rat
  top_k : Int
  max_output_tokens : Int

/-- The hardcoded `generation_config` literal in `get_review`. -/
def hardcoded_generation_config : GenerationConfig :=
  ⟨1, 0.95, 0, 8192⟩

/-- One observable model invocation: the model name, generation configuration
and system instruction the `GenerativeModel` was constructed with, the seeded
chat history, and the message sent. -/
structure ModelCall where
  model_name : String
  config : GenerationConfig
  system_instruction : String
  history : List Turn
  message : String

/-- The per-chunk call of `get_review`: a chat seeded with the review prompt
and the fixed "Ok" acknowledgment, then the chunk as the next user message. -/
def review_chunk_call (model extra_prompt : String) (chunked_diff : List Char) : ModelCall :=
  ⟨model, hardcoded_generation_config, extra_prompt,
    [⟨"user", [get_review_prompt extra_prompt]⟩, ⟨"model", ["Ok"]⟩],
    String.mk chunked_diff⟩

/-- The final call of `get_review`: a chat with empty history whose message is
the summarize prompt, a blank line, then the chunk reviews joined by newlines. -/
def summary_call_of (model extra_prompt summarize_prompt : String)
    (chunked_reviews : List String) : ModelCall :=
  ⟨model, hardcoded_generation_config, extra_prompt, [],
    summarize_prompt ++ "\n\n" ++ String.intercalate "\n" chunked_reviews⟩

/-- `get_review` from `entrypoint.py`, with the model service abstracted as the
oracle `send`.  Returns the chunk reviews, the final review, and the trace of
model calls issued, or propagates the `chunk_string` error. -/
def get_review (send : ModelCall → String) (model : String) (diff : List Char)
    (extra_prompt : String) (temperature : Rat) (max_tokens : Int) (top_p : Rat)
    (frequency_penalty : Rat) (presence_penalty : Rat) (prompt_chunk_size : Int) :
    Except String (List String × String × List ModelCall) :=
  match chunk_string diff prompt_chunk_size with
  | .error e => .error e
  | .ok chunked_diff_list =>
    let per_chunk_calls := chunked_diff_list.map (review_chunk_call model extra_prompt)
    let chunked_reviews := per_chunk_calls.map send
    if chunked_reviews.length = 1 then
      .ok (chunked_reviews, chunked_reviews[0]!, per_chunk_calls)
    else
      let summarize_prompt :=
        if chunked_reviews.length = 0 then empty_diff_instruction
        else get_summarize_prompt
      let summary := summary_call_of model extra_prompt summarize_prompt chunked_reviews
      .ok (chunked_reviews, send summary, per_chunk_calls ++ [summary])

/-- `format_review_comment` from `entrypoint.py`. -/
def format_review_comment (summarized_review : String) (chunked_reviews : List String) :
    String :=
  if chunked_reviews.length = 1 then summarized_review
  else
    "<details>\n    <summary>" ++ summarized_review ++ "</summary>\n    " ++
      String.intercalate "\n" chunked_reviews ++ "\n    </details>\n    "

/-! ### Chunker lemmas -/

theorem pySlice_coe (s : List Char) (i m : Nat) :
    pySlice s (i : Int) ((i : Int) + (m : Int)) = (s.drop i).take m := by
  simp only [pySlice, pyIndex]
  rw [if_neg (by omega), if_neg (by omega)]
  have e1 : (min (i : Int) (s.length : Int)).toNat = min i s.length := by omega
  have e2 : (min ((i : Int) + (m : Int)) (s.length : Int) -
      min (i : Int) (s.length : Int)).toNat = min (i + m) s.length - min i s.length := by
    omega
  rw [e1, e2]
  rcases le_or_lt i s.length with h | h
  · rw [Nat.min_eq_left h, List.take_eq_take]
    simp only [List.length_drop]
    omega
  · have d1 : s.drop i = [] := List.drop_eq_nil_of_le (by omega)
    have d2 : min (i + m) s.length - min i s.length = 0 := by omega
    rw [d1, d2]
    simp

theorem flatten_take_chunks (s : List Char) (m : Nat) (c : Nat) :
    ((List.range c).map (fun k => (s.drop (m * k)).take m)).flatten = s.take (m * c) := by
  induction c with
  | zero => simp
  | succ c ih =>
    rw [List.range_succ, List.map_append, List.flatten_append, ih]
    simp only [List.map_cons, List.map_nil, List.flatten_cons, List.flatten_nil,
      List.append_nil]
    rw [← List.take_add]
    congr 1

theorem le_mul_ceilDiv_self (len m : Nat) (hm : 0 < m) : len ≤ m * (len ⌈/⌉ m) := by
  rw [Nat.ceilDiv_eq_add_pred_div]
  have h1 := Nat.div_add_mod (len + m - 1) m
  have h2 := Nat.mod_lt (len + m - 1) hm
  omega

theorem pythonRangeList_pos (len m : Nat) (hm : 0 < m) :
    pythonRangeList 0 (len : Int) (m : Int) =
      (List.range (len ⌈/⌉ m)).map (fun k => ((m * k : Nat) : Int)) := by
  unfold pythonRangeList
  rw [if_pos (by omega : (0 : Int) < (m : Int))]
  have hc : (((len : Int) - 0 + (m : Int) - 1) / (m : Int)).toNat = len ⌈/⌉ m := by
    rw [Nat.ceilDiv_eq_add_pred_div]
    obtain ⟨q, r, hq, hr⟩ : ∃ q r, (len + m - 1) / m = q ∧ (len + m - 1) % m = r :=
      ⟨_, _, rfl, rfl⟩
    have hqr : m * q + r = len + m - 1 := by
      rw [← hq, ← hr]
      exact Nat.div_add_mod _ _
    have hrm : r < m := by
      rw [← hr]
      exact Nat.mod_lt _ hm
    have hqr2 : q * m + r + 1 = len + m := by
      rw [Nat.mul_comm]
      obtain ⟨p, hp⟩ : ∃ p, m * q = p := ⟨_, rfl⟩
      rw [hp] at hqr ⊢
      omega
    have hcast := congrArg (Nat.cast : Nat → Int) hqr2
    push_cast at hcast
    have e : ((len : Int) - 0 + (m : Int) - 1) = (r : Int) + (q : Int) * (m : Int) := by
      linarith [hcast]
    rw [hq, e, Int.add_mul_ediv_right _ _ (by omega : (m : Int) ≠ 0),
      Int.ediv_eq_zero_of_lt (by omega) (by omega)]
    omega
  rw [hc]
  apply List.map_congr_left
  intro k hk
  push_cast
  ring

theorem chunk_string_pos (s : List Char) (m : Nat) (hm : 0 < m) :
    chunk_string s (m : Int) =
      .ok ((List.range (s.length ⌈/⌉ m)).map (fun k => (s.drop (m * k)).take m)) := by
  unfold chunk_string pythonRange
  rw [if_neg (by omega : ¬ ((m : Int) = 0)), pythonRangeList_pos s.length m hm]
  simp only [List.map_map]
  congr 1
  apply List.map_congr_left
  intro k hk
  simp only [Function.comp_apply]
  exact pySlice_coe s (m * k) m

theorem pythonRangeList_neg (len : Nat) (n : Int) (hn : n < 0) :
    pythonRangeList 0 (len : Int) n = [] := by
  unfold pythonRangeList
  rw [if_neg (by omega)]
  have h0 : (0 - (len : Int) - n - 1) / (-n) < 1 := by
    rw [Int.ediv_lt_iff_lt_mul (by omega)]
    omega
  have hz : ((0 - (len : Int) - n - 1) / (-n)).toNat = 0 := by
    rw [Int.toNat_eq_zero]
    omega
  rw [hz]
  simp

/-- C1: for every string `s` and positive chunk size `n`, `chunk_string s n`
succeeds, concatenating its chunks in order reproduces `s` exactly, and the
number of chunks is `ceil (len s / n)` for non-empty `s` and `0` for empty `s`. -/
theorem spec_chunk_fidelity (s : List Char) (n : Int) (hn : 0 < n) :
    ∃ l, chunk_string s n = .ok l ∧ l.flatten = s ∧
      l.length = s.length ⌈/⌉ n.toNat ∧ (s = [] → l.length = 0) := by
  obtain ⟨m, rfl⟩ : ∃ m : Nat, n = (m : Int) := ⟨n.toNat, (Int.toNat_of_nonneg hn.le).symm⟩
  have hm : 0 < m := by omega
  refine ⟨_, chunk_string_pos s m hm, ?_, ?_, ?_⟩
  · rw [flatten_take_chunks]
    exact List.take_of_length_le (le_mul_ceilDiv_self s.length m hm)
  · simp [Int.toNat_natCast]
  · intro hs
    subst hs
    simp only [List.length_map, List.length_range, List.length_nil,
      Nat.ceilDiv_eq_add_pred_div]
    exact Nat.div_eq_of_lt (by omega)

theorem spec_chunk_fidelity_witness :
    (0 : Int) < 3 ∧
    ∃ l, chunk_string ['a', 'b', 'c', 'd'] 3 = .ok l ∧ l.flatten = ['a', 'b', 'c', 'd'] ∧
      l.length = ([ 'a', 'b', 'c', 'd'] : List Char).length ⌈/⌉ (3 : Int).toNat ∧
      (([ 'a', 'b', 'c', 'd'] : List Char) = [] → l.length = 0) :=
  ⟨by decide, spec_chunk_fidelity ['a', 'b', 'c', 'd'] 3 (by decide)⟩

/-- C2 counterexample: for the non-empty string "a" and the non-positive chunk
size `-1`, `chunk_string` does not raise: it returns the empty chunk list,
because Python `range(0, 1, -1)` is empty rather than an error. -/
theorem spec_chunk_negative_counterexample :
    chunk_string ['a'] (-1) = .ok [] := by rfl

/-- C2 amended: `chunk_string s 0` raises (Python `range` rejects a zero step)
for every `s`; but for a negative chunk size `chunk_string` silently returns an
empty chunk list instead of raising, for every `s`. -/
theorem spec_chunk_nonpositive (s : List Char) (n : Int) (hn : n ≤ 0) :
    chunk_string s n =
      if n = 0 then .error "ValueError: range() arg 3 must not be zero"
      else .ok [] := by
  rcases eq_or_lt_of_le hn with h | h
  · subst h
    rw [if_pos rfl]
    unfold chunk_string pythonRange
    rw [if_pos rfl]
  · rw [if_neg (by omega)]
    unfold chunk_string pythonRange
    rw [if_neg (by omega), pythonRangeList_neg s.length n h]
    rfl

theorem spec_chunk_nonpositive_witness :
    (-2 : Int) ≤ 0 ∧
    chunk_string ['a'] (-2) =
      (if (-2 : Int) = 0 then .error "ValueError: range() arg 3 must not be zero"
       else .ok []) :=
  ⟨by decide, spec_chunk_nonpositive ['a'] (-2) (by decide)⟩

/-! ### Review pipeline lemmas -/

theorem chunk_string_nil (n : Int) (hn : n ≠ 0) : chunk_string [] n = .ok [] := by
  rcases lt_or_gt_of_ne hn with h | h
  · unfold chunk_string pythonRange
    rw [if_neg hn]
    have e := pythonRangeList_neg 0 n h
    simp only [Nat.cast_zero] at e
    simp only [List.length_nil, Nat.cast_zero, e, List.map_nil]
  · obtain ⟨m, rfl⟩ : ∃ m : Nat, n = (m : Int) := ⟨n.toNat, (Int.toNat_of_nonneg h.le).symm⟩
    have hm : 0 < m := by omega
    have h0 : ([] : List Char).length ⌈/⌉ m = 0 := by
      simp only [List.length_nil, Nat.ceilDiv_eq_add_pred_div, Nat.zero_add]
      exact Nat.div_eq_of_lt (by omega)
    rw [chunk_string_pos [] m hm, h0]
    rfl

/-- C3: when chunking yields exactly one chunk, `get_review` returns a
per-chunk list equal to `[finalReview]`, and the call trace holds exactly one
model call: the seeded per-chunk one, so no summarization call is issued. -/
theorem spec_single_chunk (send : ModelCall → String) (model : String) (diff : List Char)
    (extra_prompt : String) (temperature : Rat) (max_tokens : Int) (top_p : Rat)
    (frequency_penalty presence_penalty : Rat) (n : Int) (c : List Char)
    (hc : chunk_string diff n = .ok [c]) :
    ∃ r, get_review send model diff extra_prompt temperature max_tokens top_p
        frequency_penalty presence_penalty n =
      .ok ([r], r, [review_chunk_call model extra_prompt c]) ∧
      r = send (review_chunk_call model extra_prompt c) := by
  refine ⟨send (review_chunk_call model extra_prompt c), ?_, rfl⟩
  simp [get_review, hc]

/-- C4: when chunking yields at least two chunks, `get_review` issues exactly
one additional call, with empty seeded history, whose message is the
summarization prompt followed by all chunk reviews joined by newlines in chunk
order, and returns that call's reply as the final review. -/
theorem spec_multi_chunk_summary (send : ModelCall → String) (model : String)
    (diff : List Char) (extra_prompt : String) (temperature : Rat) (max_tokens : Int)
    (top_p : Rat) (frequency_penalty presence_penalty : Rat) (n : Int)
    (cs : List (List Char))
    (hc : chunk_string diff n = .ok cs) (h2 : 2 ≤ cs.length) :
    ∃ reviews final,
      get_review send model diff extra_prompt temperature max_tokens top_p
          frequency_penalty presence_penalty n =
        .ok (reviews, final,
          cs.map (review_chunk_call model extra_prompt) ++
            [summary_call_of model extra_prompt get_summarize_prompt reviews]) ∧
      reviews = (cs.map (review_chunk_call model extra_prompt)).map send ∧
      reviews.length = cs.length ∧
      (summary_call_of model extra_prompt get_summarize_prompt reviews).history = [] ∧
      (summary_call_of model extra_prompt get_summarize_prompt reviews).message =
        get_summarize_prompt ++ "\n\n" ++ String.intercalate "\n" reviews ∧
      final = send (summary_call_of model extra_prompt get_summarize_prompt reviews) := by
  refine ⟨(cs.map (review_chunk_call model extra_prompt)).map send, _, ?_, rfl, by simp,
    rfl, rfl, rfl⟩
  simp only [get_review, hc, List.length_map]
  rw [if_neg (by omega : ¬ (cs.length = 1)), if_neg (by omega : ¬ (cs.length = 0))]

/-- C5: on the empty input, `get_review` makes zero per-chunk calls and pins
the first spec variant: one summarization call with empty history whose message
holds the fixed no-relevant-changes instruction, returning `[]` and that reply. -/
theorem spec_empty_input (send : ModelCall → String) (model : String)
    (extra_prompt : String) (temperature : Rat) (max_tokens : Int) (top_p : Rat)
    (frequency_penalty presence_penalty : Rat) (n : Int) (hn : n ≠ 0) :
    get_review send model [] extra_prompt temperature max_tokens top_p
        frequency_penalty presence_penalty n =
      .ok ([], send (summary_call_of model extra_prompt empty_diff_instruction []),
        [summary_call_of model extra_prompt empty_diff_instruction []]) ∧
    (summary_call_of model extra_prompt empty_diff_instruction []).history = [] ∧
    (summary_call_of model extra_prompt empty_diff_instruction []).message =
      empty_diff_instruction ++ "\n\n" := by
  refine ⟨?_, rfl, ?_⟩
  · simp [get_review, chunk_string_nil n hn]
  · show empty_diff_instruction ++ "\n\n" ++ String.intercalate "\n" [] =
      empty_diff_instruction ++ "\n\n"
    rfl

/-- C6: with a one-element chunk-review list, `format_review_comment` returns
the final review verbatim, adding no wrapping characters. -/
theorem spec_format_single_identity (r c : String) :
    format_review_comment r [c] = r := rfl

/-- C7: with at least two chunk reviews, `format_review_comment` returns a
string containing the final review and, after it, all chunk reviews joined by
newlines, each unmodified and in the original order. -/
theorem spec_format_multi_structure (r : String) (chunks : List String)
    (h2 : 2 ≤ chunks.length) :
    ∃ a b c, format_review_comment r chunks =
      a ++ r ++ b ++ String.intercalate "\n" chunks ++ c := by
  refine ⟨"<details>\n    <summary>", "</summary>\n    ", "\n    </details>\n    ", ?_⟩
  unfold format_review_comment
  rw [if_neg (by omega : ¬ (chunks.length = 1))]

/-- C8: `get_review_prompt` is a constant function of its extra-instructions
argument: the parameter is accepted but never concatenated into the template. -/
theorem spec_review_prompt_constant (a b : String) :
    get_review_prompt a = get_review_prompt b := rfl

theorem get_review_calls_shape (send : ModelCall → String) (model : String)
    (diff : List Char) (extra_prompt : String) (temperature : Rat) (max_tokens : Int)
    (top_p : Rat) (frequency_penalty presence_penalty : Rat) (n : Int)
    (reviews : List String) (final : String) (calls : List ModelCall)
    (h : get_review send model diff extra_prompt temperature max_tokens top_p
        frequency_penalty presence_penalty n = .ok (reviews, final, calls)) :
    ∀ call ∈ calls, call.config = hardcoded_generation_config ∧
      call.system_instruction = extra_prompt := by
  cases hc : chunk_string diff n with
  | error e =>
    simp [get_review, hc] at h
  | ok cs =>
    simp only [get_review, hc, List.length_map] at h
    by_cases h1 : cs.length = 1
    · rw [if_pos h1] at h
      simp only [Except.ok.injEq, Prod.mk.injEq] at h
      obtain ⟨-, -, h3⟩ := h
      subst h3
      intro call hm
      rw [List.mem_map] at hm
      obtain ⟨cd, -, rfl⟩ := hm
      exact ⟨rfl, rfl⟩
    · rw [if_neg h1] at h
      simp only [Except.ok.injEq, Prod.mk.injEq] at h
      obtain ⟨-, -, h3⟩ := h
      subst h3
      intro call hm
      rcases List.mem_append.mp hm with hm | hm
      · rw [List.mem_map] at hm
        obtain ⟨cd, -, rfl⟩ := hm
        exact ⟨rfl, rfl⟩
      · rw [List.mem_singleton] at hm
        subst hm
        exact ⟨rfl, rfl⟩

/-- C9: `get_review` ignores its temperature, max-tokens, top-p, frequency- and
presence-penalty arguments: any two runs differing only in them return the same
value, and every issued call carries the hardcoded generation configuration
(temperature 1, top_p 0.95, top_k 0, max_output_tokens 8192). -/
theorem spec_generation_params_ignored (send : ModelCall → String) (model : String)
    (diff : List Char) (extra_prompt : String) (t1 t2 : Rat) (mt1 mt2 : Int)
    (tp1 tp2 fp1 fp2 pp1 pp2 : Rat) (n : Int) :
    get_review send model diff extra_prompt t1 mt1 tp1 fp1 pp1 n =
      get_review send model diff extra_prompt t2 mt2 tp2 fp2 pp2 n ∧
    (∀ reviews final calls,
      get_review send model diff extra_prompt t1 mt1 tp1 fp1 pp1 n =
        .ok (reviews, final, calls) →
      ∀ call ∈ calls, call.config = (⟨1, 0.95, 0, 8192⟩ : GenerationConfig)) :=
  ⟨rfl, fun reviews final calls h call hm =>
    (get_review_calls_shape send model diff extra_prompt t1 mt1 tp1 fp1 pp1 n
      reviews final calls h call hm).1⟩

/-- C10: `get_review` passes its `extra_prompt` argument verbatim as the
system instruction of every model call it issues, per-chunk and summarization
alike. -/
theorem spec_extra_prompt_system_instruction (send : ModelCall → String) (model : String)
    (diff : List Char) (extra_prompt : String) (temperature : Rat) (max_tokens : Int)
    (top_p : Rat) (frequency_penalty presence_penalty : Rat) (n : Int)
    (reviews : List String) (final : String) (calls : List ModelCall)
    (h : get_review send model diff extra_prompt temperature max_tokens top_p
        frequency_penalty presence_penalty n = .ok (reviews, final, calls)) :
    ∀ call ∈ calls, call.system_instruction = extra_prompt :=
  fun call hm => (get_review_calls_shape send model diff extra_prompt temperature
    max_tokens top_p frequency_penalty presence_penalty n reviews final calls h call hm).2

/-! ### Witnesses -/

theorem spec_single_chunk_witness :
    chunk_string ['a'] 2 = .ok [['a']] ∧
    ∃ r, get_review (fun _ => "R") "gemini-pro" ['a'] "extra" 1 512 1 0 0 2 =
        .ok ([r], r, [review_chunk_call "gemini-pro" "extra" ['a']]) ∧
      r = "R" :=
  ⟨rfl, spec_single_chunk (fun _ => "R") "gemini-pro" ['a'] "extra" 1 512 1 0 0 2 ['a'] rfl⟩

theorem spec_multi_chunk_summary_witness :
    chunk_string ['a', 'b', 'c'] 2 = .ok [['a', 'b'], ['c']] ∧
    2 ≤ ([['a', 'b'], ['c']] : List (List Char)).length ∧
    ∃ reviews final,
      get_review (fun _ => "R") "gemini-pro" ['a', 'b', 'c'] "extra" 1 512 1 0 0 2 =
        .ok (reviews, final,
          ([['a', 'b'], ['c']] : List (List Char)).map (review_chunk_call "gemini-pro" "extra") ++
            [summary_call_of "gemini-pro" "extra" get_summarize_prompt reviews]) := by
  refine ⟨rfl, by decide, ?_⟩
  obtain ⟨reviews, final, h1, -, -, -, -, -⟩ :=
    spec_multi_chunk_summary (fun _ => "R") "gemini-pro" ['a', 'b', 'c'] "extra" 1 512 1 0 0 2
      [['a', 'b'], ['c']] rfl (by decide)
  exact ⟨reviews, final, h1⟩

theorem spec_empty_input_witness :
    (3500 : Int) ≠ 0 ∧
    (get_review (fun _ => "R") "gemini-pro" [] "extra" 1 512 1 0 0 3500 =
      .ok ([], "R", [summary_call_of "gemini-pro" "extra" empty_diff_instruction []]) ∧
    (summary_call_of "gemini-pro" "extra" empty_diff_instruction []).history = [] ∧
    (summary_call_of "gemini-pro" "extra" empty_diff_instruction []).message =
      empty_diff_instruction ++ "\n\n") :=
  ⟨by decide,
    spec_empty_input (fun _ => "R") "gemini-pro" "extra" 1 512 1 0 0 3500 (by decide)⟩

theorem spec_format_multi_structure_witness :
    2 ≤ (["x", "y"] : List String).length ∧
    ∃ a b c, format_review_comment "final" ["x", "y"] =
      a ++ "final" ++ b ++ String.intercalate "\n" ["x", "y"] ++ c :=
  ⟨by decide, spec_format_multi_structure "final" ["x", "y"] (by decide)⟩

theorem spec_generation_params_ignored_witness :
    (get_review (fun _ => "R") "gemini-pro" ['a'] "extra" 0 1 2 3 4 1 =
      get_review (fun _ => "R") "gemini-pro" ['a'] "extra" 9 8 7 6 5 1) ∧
    (review_chunk_call "gemini-pro" "extra" ['a']).config =
      (⟨1, 0.95, 0, 8192⟩ : GenerationConfig) :=
  ⟨(spec_generation_params_ignored (fun _ => "R") "gemini-pro" ['a'] "extra"
      0 9 1 8 2 7 3 6 4 5 1).1,
   (spec_generation_params_ignored (fun _ => "R") "gemini-pro" ['a'] "extra"
      0 9 1 8 2 7 3 6 4 5 1).2
     ["R"] "R" [review_chunk_call "gemini-pro" "extra" ['a']] rfl
     (review_chunk_call "gemini-pro" "extra" ['a']) (List.mem_singleton.mpr rfl)⟩

theorem spec_extra_prompt_system_instruction_witness :
    get_review (fun _ => "R") "gemini-pro" ['a'] "sys" 1 512 1 0 0 1 =
      .ok (["R"], "R", [review_chunk_call "gemini-pro" "sys" ['a']]) ∧
    (review_chunk_call "gemini-pro" "sys" ['a']).system_instruction = "sys" :=
  ⟨rfl, spec_extra_prompt_system_instruction (fun _ => "R") "gemini-pro" ['a'] "sys"
      1 512 1 0 0 1 ["R"] "R" [review_chunk_call "gemini-pro" "sys" ['a']] rfl
      (review_chunk_call "gemini-pro" "sys" ['a']) (List.mem_singleton.mpr rfl)⟩
